import Mathlib

/-!
# Verification of the thick-cloth Verlet simulation core

Shallow embedding of the WebGPU cloth simulation (topology builder,
spring-force kernel, vertex-integration kernel, collision response and
buffer reset) over exact rationals.  GPU `f32` arithmetic is modelled by
`ℚ`; the GPU `length()`/`sqrt` primitive is modelled by `Rat.sqrt`, which
agrees with the real square root on perfect rational squares (all inputs
used by concrete witnesses below are of that form).
-/

attribute [local semireducible] Rat.add Rat.sub Rat.mul Rat.inv Rat.ofScientific

namespace ClothSim

/-- Fuel-driven Newton iteration, mirroring `Nat.sqrt.iter` but
structurally recursive so that concrete witnesses reduce inside the
kernel.  `nsqrtAux fuel n guess` equals `Nat.sqrt.iter n guess` whenever
`guess ≤ fuel`. -/
def nsqrtAux : Nat → Nat → Nat → Nat
  | 0, _, guess => guess
  | fuel + 1, n, guess =>
    let next := (guess + n / guess) / 2
    if next < guess then nsqrtAux fuel n next else guess

/-- Integer square root (kernel-reducible `Nat.sqrt`). -/
def nsqrt (n : Nat) : Nat :=
  if n ≤ 1 then n else nsqrtAux n n (n / 2)

/-- Rational square root (kernel-reducible `Rat.sqrt`): square root of
the numerator over square root of the denominator. -/
def qsqrt (q : ℚ) : ℚ := mkRat (nsqrt q.num.toNat) (nsqrt q.den)

/-- 3-component vector over ℚ, modelling a GPU `vec3`. -/
structure Vec3 where
  x : ℚ
  y : ℚ
  z : ℚ
deriving DecidableEq, Repr

/-- Componentwise addition, modelling `vec3.add`. -/
def Vec3.add (a b : Vec3) : Vec3 := ⟨a.x + b.x, a.y + b.y, a.z + b.z⟩

/-- Componentwise subtraction, modelling `vec3.sub`. -/
def Vec3.sub (a b : Vec3) : Vec3 := ⟨a.x - b.x, a.y - b.y, a.z - b.z⟩

/-- Scalar multiplication, modelling `vec3.mul(scalar)` / `mulScalar`. -/
def Vec3.smul (c : ℚ) (v : Vec3) : Vec3 := ⟨c * v.x, c * v.y, c * v.z⟩

/-- The zero vector. -/
def Vec3.zero : Vec3 := ⟨0, 0, 0⟩

/-- Squared Euclidean norm. -/
def Vec3.normSq (v : Vec3) : ℚ := v.x * v.x + v.y * v.y + v.z * v.z

/-- Model of the GPU `length()` primitive: rational square root of the
squared norm (exact whenever the squared norm is a perfect square). -/
def vlen (v : Vec3) : ℚ := qsqrt v.normSq

/-- Model of the GPU `normalize()` primitive: `v / |v|` (division by zero
yields the zero vector, standing in for the GPU's undefined result). -/
def vnormalize (v : Vec3) : Vec3 := Vec3.smul (1 / vlen v) v

/-! ## Configuration constants (`src/config/constants.js`) -/

/-- Constant `CLOTH_WIDTH = 1.5`. -/
def CLOTH_WIDTH : ℚ := 3 / 2

/-- Constant `CLOTH_HEIGHT = 1.5`. -/
def CLOTH_HEIGHT : ℚ := 3 / 2

/-- Constant `CLOTH_THICKNESS = 0.003`. -/
def CLOTH_THICKNESS : ℚ := 3 / 1000

/-- Constant `Z_SPRING_STIFFNESS = 0.8`. -/
def Z_SPRING_STIFFNESS : ℚ := 8 / 10

/-- Constant `SPRING_BREAK_THRESHOLD = 1.9`. -/
def SPRING_BREAK_THRESHOLD : ℚ := 19 / 10

/-- Constant `SPRING_BREAK_ENABLED = true`. -/
def SPRING_BREAK_ENABLED : Bool := true

/-- Constant `DEFAULT_IN_PLANE_STIFFNESS = 0.2` (geometry module). -/
def DEFAULT_IN_PLANE_STIFFNESS : ℚ := 2 / 10

/-! ## Topology builder (`src/verlet/geometry.js`)

`setupVerletGeometry` builds two `(nx+1) × (ny+1)` vertex grids (top and
bottom layer) and then adds springs via `addVerletSpring`.  Vertices are
created before any spring, in x-major order, so the `id` assigned by
`addVerletVertex` (`id = verletVertices.length`) is
`x * (ny+1) + y` for the top layer and `(nx+1)*(ny+1) + x*(ny+1) + y`
for the bottom layer; the embedding uses these closed forms for the ids
of the grid vertices and embeds spring creation as a fold of
`addVerletSpring` over the list of `(vertex0, vertex1, stiffness, isZSpring)`
calls made by `createLayerSprings` and the Z-spring loop, in source order. -/

/-- A Verlet vertex: `{ id, position, isFixed, springIds }`.  `springIds`
holds the `{ id, isZSpring }` records pushed by `addVerletSpring`. -/
structure VVertex where
  id : Nat
  position : Vec3
  isFixed : Bool
  springIds : List (Nat × Bool)
deriving DecidableEq, Repr

/-- A Verlet spring: `{ id, vertex0, vertex1, stiffness, isZSpring }`.
The JS object stores references to the endpoint vertex objects; only
their `id` fields are ever read downstream, so endpoints are vertex ids. -/
structure VSpring where
  id : Nat
  vertex0 : Nat
  vertex1 : Nat
  stiffness : ℚ
  isZSpring : Bool
deriving DecidableEq, Repr

/-- The geometry module state: `verletVertices` and `verletSprings`. -/
structure Geom where
  verletVertices : List VVertex
  verletSprings : List VSpring
deriving DecidableEq, Repr

/-- Placeholder vertex for total list indexing. -/
def dfltVertex : VVertex := ⟨0, Vec3.zero, false, []⟩

/-- Placeholder spring for total list indexing. -/
def dfltSpring : VSpring := ⟨0, 0, 0, 0, false⟩

/-- Models `vertex.springIds.push` of an `(id, isZSpring)` record on the vertex with index `v`. -/
def pushSpringId (vs : List VVertex) (v : Nat) (sid : Nat) (isZ : Bool) :
    List VVertex :=
  match vs.get? v with
  | some va => vs.set v { va with springIds := va.springIds ++ [(sid, isZ)] }
  | none => vs

/-- One call of `addVerletSpring(vertex0, vertex1, stiffness, isZSpring)`:
the new spring gets `id = verletSprings.length` and its id is pushed onto
both endpoints' `springIds`. -/
def addVerletSpring (g : Geom) (v0 v1 : Nat) (stiffness : ℚ) (isZ : Bool) :
    Geom :=
  let id := g.verletSprings.length
  { verletVertices := pushSpringId (pushSpringId g.verletVertices v0 id isZ) v1 id isZ,
    verletSprings := g.verletSprings ++ [⟨id, v0, v1, stiffness, isZ⟩] }

/-- Arguments of one `addVerletSpring` call. -/
structure SpringCmd where
  a : Nat
  b : Nat
  k : ℚ
  isZ : Bool
deriving DecidableEq, Repr

/-- Id of the top-layer vertex at column `x`, row `y`
(creation order is x-major, `ny+1` vertices per column). -/
def topId (ny x y : Nat) : Nat := x * (ny + 1) + y

/-- Id of the bottom-layer vertex at column `x`, row `y`. -/
def botId (nx ny x y : Nat) : Nat := (nx + 1) * (ny + 1) + topId ny x y

/-- Grid coordinate `posX = x * (CLOTH_WIDTH / CLOTH_NUM_SEGMENTS_X) - CLOTH_WIDTH * 0.5`. -/
def gridCoord (w : ℚ) (n : Nat) (i : Nat) : ℚ :=
  (i : ℚ) * (w / (n : ℚ)) - w * (1 / 2)

/-- One grid vertex as created by `addVerletVertex` inside
`setupVerletGeometry`: fixed iff on the outer perimeter. -/
def gridVertex (nx ny : Nat) (w h : ℚ) (yCoord : ℚ) (idBase x y : Nat) :
    VVertex :=
  { id := idBase + topId ny x y,
    position := ⟨gridCoord w nx x, yCoord, gridCoord h ny y⟩,
    isFixed := (x == 0) || (x == nx) || (y == 0) || (y == ny),
    springIds := [] }

/-- The vertices of one layer, in creation order (x-major). -/
def layerVertices (nx ny : Nat) (w h : ℚ) (yCoord : ℚ) (idBase : Nat) :
    List VVertex :=
  (List.range (nx + 1)).flatMap fun x =>
    (List.range (ny + 1)).map fun y => gridVertex nx ny w h yCoord idBase x y

/-- All vertices created by `setupVerletGeometry`: top layer at
`y = +thickness/2`, then bottom layer at `y = -thickness/2`. -/
def gridVertices (nx ny : Nat) (w h th : ℚ) : List VVertex :=
  layerVertices nx ny w h (th / 2) 0 ++
    layerVertices nx ny w h (-(th / 2)) ((nx + 1) * (ny + 1))

/-- The `addVerletSpring` calls made by `createLayerSprings` for the grid
cell `(x, y)` of the layer whose vertex ids start at `base`, in source
order: horizontal (left), vertical (up), diagonal (up-left), diagonal
(down-left). -/
def cellCmds (ny base x y : Nat) : List SpringCmd :=
  (if 0 < x then
    [⟨base + topId ny x y, base + topId ny (x - 1) y, DEFAULT_IN_PLANE_STIFFNESS, false⟩]
   else []) ++
  (if 0 < y then
    [⟨base + topId ny x y, base + topId ny x (y - 1), DEFAULT_IN_PLANE_STIFFNESS, false⟩]
   else []) ++
  (if 0 < x && 0 < y then
    [⟨base + topId ny x y, base + topId ny (x - 1) (y - 1), DEFAULT_IN_PLANE_STIFFNESS, false⟩]
   else []) ++
  (if 0 < x && y < ny then
    [⟨base + topId ny x y, base + topId ny (x - 1) (y + 1), DEFAULT_IN_PLANE_STIFFNESS, false⟩]
   else [])

/-- All `addVerletSpring` calls of `createLayerSprings(columns)`. -/
def layerCmds (nx ny base : Nat) : List SpringCmd :=
  (List.range (nx + 1)).flatMap fun x =>
    (List.range (ny + 1)).flatMap fun y => cellCmds ny base x y

/-- The Z-spring `addVerletSpring` calls: one per `(x, y)`, connecting the
top vertex to the corresponding bottom vertex with `Z_SPRING_STIFFNESS`
and `isZSpring = true`. -/
def zCmds (nx ny : Nat) (zk : ℚ) : List SpringCmd :=
  (List.range (nx + 1)).flatMap fun x =>
    (List.range (ny + 1)).map fun y =>
      ⟨topId ny x y, botId nx ny x y, zk, true⟩

/-- Every `addVerletSpring` call made by `setupVerletGeometry`, in order:
top-layer in-plane springs, bottom-layer in-plane springs, Z-springs. -/
def geomCmds (nx ny : Nat) (zk : ℚ) : List SpringCmd :=
  layerCmds nx ny 0 ++ layerCmds nx ny ((nx + 1) * (ny + 1)) ++ zCmds nx ny zk

/-- Runs a list of `addVerletSpring` calls. -/
def runSpringCmds (g : Geom) (cmds : List SpringCmd) : Geom :=
  cmds.foldl (fun g c => addVerletSpring g c.a c.b c.k c.isZ) g

/-- The builder `setupVerletGeometry`, parametrised by the configuration constants it
reads (`CLOTH_NUM_SEGMENTS_X/Y`, `CLOTH_WIDTH/HEIGHT`, `CLOTH_THICKNESS`,
`Z_SPRING_STIFFNESS`): creates both vertex layers, then all springs.
It performs no validation of its configuration. -/
def setupVerletGeometry (nx ny : Nat) (w h th zk : ℚ) : Geom :=
  runSpringCmds { verletVertices := gridVertices nx ny w h th, verletSprings := [] }
    (geomCmds nx ny zk)

/-! ## Buffer setup (`src/verlet/buffers.js`) -/

/-- One `uvec3` entry of `vertexParamsArray`:
`x = isFixed`, `y = springCount`, `z = springPointer`.  The source only
writes `y`/`z` for movable vertices; for fixed vertices they keep the
`Uint32Array` zero-fill. -/
structure VertexParams where
  isFixed : Bool
  springCount : Nat
  springPointer : Nat
deriving DecidableEq, Repr

/-- The loop body of `setupVerletVertexBuffers`: appends this vertex's
params entry and, for movable vertices, its spring ids to the shared
`springListArray`. -/
def vertexBufferStep (acc : List VertexParams × List Nat) (v : VVertex) :
    List VertexParams × List Nat :=
  let allSpringIds := v.springIds.map Prod.fst
  if v.isFixed then
    (acc.1 ++ [⟨true, 0, 0⟩], acc.2)
  else
    (acc.1 ++ [⟨false, allSpringIds.length, acc.2.length⟩], acc.2 ++ allSpringIds)

/-- The setup `setupVerletVertexBuffers`: builds `vertexParamsArray` and
`springListArray` (initial positions are read directly from the
geometry elsewhere in the embedding). -/
def setupVerletVertexBuffers (g : Geom) : List VertexParams × List Nat :=
  g.verletVertices.foldl vertexBufferStep ([], [])

/-- Rest length of one spring as computed by `setupVerletSpringBuffers`:
`spring.vertex0.position.distanceTo(spring.vertex1.position)`. -/
def springRestLengthOf (g : Geom) (s : VSpring) : ℚ :=
  vlen (Vec3.sub ((g.verletVertices.getD s.vertex0 dfltVertex).position)
    ((g.verletVertices.getD s.vertex1 dfltVertex).position))

/-! ## Simulation state and compute kernels (`src/compute/shaders.js`)

The immutable per-topology buffers (`springVertexIdBuffer`,
`springRestLengthBuffer`, `springTypeBuffer`, `springListBuffer`,
`vertexParamsBuffer` and the construction-time data used by
`resetSimulationBuffers`) are gathered in `SimTopo`; the buffers mutated
by the kernels (`vertexPositionBuffer`, `vertexForceBuffer`,
`springStiffnessBuffer`, `vertexBrokenBuffer`, `springForceBuffer`) form
`SimState`.  Each kernel dispatch is embedded as one deterministic state
transformer: within a dispatch every task writes only its own slot
(except the broken flags, where racing tasks all write the same value
`1`, so the disjunction below is the unique outcome). -/

/-- The immutable topology buffers consumed by the kernels. -/
structure SimTopo where
  vertexCount : Nat
  springCount : Nat
  isFixed : Nat → Bool
  numSprings : Nat → Nat
  springPointer : Nat → Nat
  springList : Nat → Nat
  sv0 : Nat → Nat
  sv1 : Nat → Nat
  restLength : Nat → ℚ
  isZ : Nat → Bool
  baseStiffness : Nat → ℚ
  restPosition : Nat → Vec3

/-- The mutable simulation buffers. -/
structure SimState where
  pos : Nat → Vec3
  force : Nat → Vec3
  stiff : Nat → ℚ
  broken : Nat → Bool
  sforce : Nat → Vec3

attribute [ext] SimState

/-- Assembles the kernel-facing topology buffers from a built geometry,
exactly as `setupVerletVertexBuffers` / `setupVerletSpringBuffers` fill
them. -/
def mkSimTopo (g : Geom) : SimTopo :=
  let vb := setupVerletVertexBuffers g
  { vertexCount := g.verletVertices.length,
    springCount := g.verletSprings.length,
    isFixed := fun v => (g.verletVertices.getD v dfltVertex).isFixed,
    numSprings := fun v => (vb.1.getD v ⟨false, 0, 0⟩).springCount,
    springPointer := fun v => (vb.1.getD v ⟨false, 0, 0⟩).springPointer,
    springList := fun j => vb.2.getD j 0,
    sv0 := fun i => (g.verletSprings.getD i dfltSpring).vertex0,
    sv1 := fun i => (g.verletSprings.getD i dfltSpring).vertex1,
    restLength := fun i => springRestLengthOf g (g.verletSprings.getD i dfltSpring),
    isZ := fun i => (g.verletSprings.getD i dfltSpring).isZSpring,
    baseStiffness := fun i => (g.verletSprings.getD i dfltSpring).stiffness,
    restPosition := fun v => (g.verletVertices.getD v dfltVertex).position }

/-- Initial simulation state: positions at rest, forces and spring forces
zero-filled, stiffness at base values, broken flags clear. -/
def initSimState (t : SimTopo) : SimState :=
  { pos := t.restPosition,
    force := fun _ => Vec3.zero,
    stiff := t.baseStiffness,
    broken := fun _ => false,
    sforce := fun _ => Vec3.zero }

/-- The runtime-tunable uniforms read by the two kernels. -/
structure StepParams where
  dampening : ℚ
  spherePosition : Vec3
  zSpringStiffness : ℚ
  inPlaneStiffness : ℚ
  sphereRadius : ℚ
  cylinderHeight : ℚ
  sphereEnabled : ℚ

/-- The literal compiled into the break test:
`SPRING_BREAK_ENABLED ? SPRING_BREAK_THRESHOLD : 999999`. -/
def breakThresholdValue (enabled : Bool) : ℚ :=
  if enabled then SPRING_BREAK_THRESHOLD else 999999

/-- Vector `delta = vertex1Position - vertex0Position` for spring `i`. -/
def springDelta (t : SimTopo) (st : SimState) (i : Nat) : Vec3 :=
  Vec3.sub (st.pos (t.sv1 i)) (st.pos (t.sv0 i))

/-- Scalar `dist = delta.length().max(0.000001)` for spring `i`. -/
def springDist (t : SimTopo) (st : SimState) (i : Nat) : ℚ :=
  max (vlen (springDelta t st i)) (1 / 1000000)

/-- The break test of `computeSpringForces`:
`stretchRatio > (SPRING_BREAK_ENABLED ? SPRING_BREAK_THRESHOLD : 999999)`
with `stretchRatio = dist / restLength`.  It reads only positions and the
rest length, never the spring type. -/
def springBreaks (enabled : Bool) (t : SimTopo) (st : SimState) (i : Nat) :
    Bool :=
  decide (breakThresholdValue enabled < springDist t st i / t.restLength i)

/-- Models `select(springType == 1, zSpringStiffnessUniform, inPlaneStiffnessUniform)`. -/
def stiffnessMultiplier (p : StepParams) (isZSpring : Bool) : ℚ :=
  if isZSpring then p.zSpringStiffness else p.inPlaneStiffness

/-- The force value stored by the spring kernel for spring `i`:
`force = dist.sub(restLength).mul(stiffness).mul(delta).mul(0.5).div(dist)`
where the local `stiffness` is `baseStiffness * multiplier`, overwritten
with `0` when the break test fired. -/
def springStoredForce (enabled : Bool) (p : StepParams) (t : SimTopo)
    (st : SimState) (i : Nat) : Vec3 :=
  let stiffness := st.stiff i * stiffnessMultiplier p (t.isZ i)
  let stiffness := if springBreaks enabled t st i then 0 else stiffness
  let delta := springDelta t st i
  let dist := springDist t st i
  Vec3.smul ((dist - t.restLength i) * stiffness * (1 / 2) / dist) delta

/-- The `computeSpringForces` dispatch: one task per spring
(`instanceIndex < springCount`); a breaking spring zeroes its stored
stiffness and flags both endpoints' broken indicators, and every spring
stores its Hooke force. -/
def computeSpringForcesK (enabled : Bool) (p : StepParams) (t : SimTopo)
    (st : SimState) : SimState :=
  { st with
    stiff := fun i =>
      if i < t.springCount && springBreaks enabled t st i then 0 else st.stiff i,
    broken := fun v =>
      st.broken v ||
        (List.range t.springCount).any fun i =>
          springBreaks enabled t st i && (t.sv0 i == v || t.sv1 i == v),
    sforce := fun i =>
      if i < t.springCount then springStoredForce enabled p t st i
      else st.sforce i }

/-- The adjacency loop of `computeVertexForces`: adds each incident
spring's stored force with sign `+1` when this vertex is the spring's
`vertex0`, else `-1`. -/
def accumulateSpringForces (t : SimTopo) (sf : Nat → Vec3) (v : Nat)
    (f : Vec3) : Vec3 :=
  (List.range' (t.springPointer v) (t.numSprings v)).foldl
    (fun f j =>
      let springId := t.springList j
      let factor : ℚ := if t.sv0 springId == v then 1 else -1
      Vec3.add f (Vec3.smul factor (sf springId)))
    f

/-- Models `force.y.subAssign(9.81 * (0.024 / vertexCount))`. -/
def applyGravity (t : SimTopo) (f : Vec3) : Vec3 :=
  { f with y := f.y - (981 / 100) * ((24 / 1000) / (t.vertexCount : ℚ)) }

/-- The collision block of `computeVertexForces` (a pure function of the
tentative position and the probe uniforms): cylinder-body push-out,
bottom-cap sphere push-out, or pure-sphere push-out when
`cylinderHeight <= 0`, with the later `If` blocks overwriting the
earlier ones exactly as in the shader. -/
def collisionDisp (p : StepParams) (newPos : Vec3) : Vec3 :=
  let cylinderTop := p.spherePosition.y
  let cylinderBottom := cylinderTop - p.cylinderHeight
  let deltaXZx := newPos.x - p.spherePosition.x
  let deltaXZz := newPos.z - p.spherePosition.z
  let distXZ := qsqrt (deltaXZx * deltaXZx + deltaXZz * deltaXZz)
  let withinHeight := decide (newPos.y ≤ cylinderTop) && decide (cylinderBottom ≤ newPos.y)
  let cylinderPenetration := p.sphereRadius - distXZ
  let cylinderCollision :=
    withinHeight && decide (0 < cylinderPenetration) && decide (0 < p.cylinderHeight)
  let deltaSphere := Vec3.sub newPos ⟨p.spherePosition.x, cylinderBottom, p.spherePosition.z⟩
  let distSphere := vlen deltaSphere
  let spherePenetration := p.sphereRadius - distSphere
  let sphereCollision :=
    decide (0 < spherePenetration) && decide (newPos.y < cylinderBottom)
  let deltaPureSphere := Vec3.sub newPos p.spherePosition
  let distPureSphere := vlen deltaPureSphere
  let pureSphereCollision := decide (p.cylinderHeight ≤ 0)
  let cf : Vec3 := Vec3.zero
  let cf := if cylinderCollision then
      Vec3.smul cylinderPenetration (vnormalize ⟨deltaXZx, 0, deltaXZz⟩)
    else cf
  let cf := if sphereCollision && decide (0 < p.cylinderHeight) then
      Vec3.smul spherePenetration (vnormalize deltaSphere)
    else cf
  let cf := if pureSphereCollision then
      Vec3.smul (max (p.sphereRadius - distPureSphere) 0) (vnormalize deltaPureSphere)
    else cf
  cf

/-- The accumulator value written back by `computeVertexForces` for a
movable vertex: dampening decay, incident-spring accumulation, gravity,
then the collision correction (scaled by the sphere enable uniform)
against the tentative position `position + force`. -/
def vertexNewForce (p : StepParams) (t : SimTopo) (st : SimState) (v : Nat) :
    Vec3 :=
  let force := Vec3.smul p.dampening (st.force v)
  let force := accumulateSpringForces t st.sforce v force
  let force := applyGravity t force
  let newPos := Vec3.add (st.pos v) force
  Vec3.add force (Vec3.smul p.sphereEnabled (collisionDisp p newPos))

/-- The `computeVertexForces` dispatch: one task per vertex
(`instanceIndex < vertexCount`); fixed vertices return without writing;
movable vertices persist the new accumulator and add it to their
position. -/
def computeVertexForcesK (p : StepParams) (t : SimTopo) (st : SimState) :
    SimState :=
  { st with
    force := fun v =>
      if v < t.vertexCount && !t.isFixed v then vertexNewForce p t st v
      else st.force v,
    pos := fun v =>
      if v < t.vertexCount && !t.isFixed v then
        Vec3.add (st.pos v) (vertexNewForce p t st v)
      else st.pos v }

/-- One physics tick: the spring dispatch, the barrier, then the vertex
dispatch (`renderer.compute(computeSpringForces)` followed by
`renderer.compute(computeVertexForces)`). -/
def tick (enabled : Bool) (p : StepParams) (t : SimTopo) (st : SimState) :
    SimState :=
  computeVertexForcesK p t (computeSpringForcesK enabled p t st)

/-- Runs a sequence of ticks with per-tick control parameters. -/
def runTicks (t : SimTopo) (steps : List (Bool × StepParams)) (st : SimState) :
    SimState :=
  steps.foldl (fun s q => tick q.1 q.2 t s) st

/-- The reset `resetSimulationBuffers`: rewrites positions from the construction-time
vertex positions, stiffness from the construction-time spring stiffness,
and clears the broken flags; it touches no other buffer. -/
def resetSimulationBuffers (t : SimTopo) (st : SimState) : SimState :=
  { st with
    pos := fun v => if v < t.vertexCount then t.restPosition v else st.pos v,
    stiff := fun i => if i < t.springCount then t.baseStiffness i else st.stiff i,
    broken := fun v => if v < t.vertexCount then false else st.broken v }

/-! ## Adjacency bookkeeping used to state the CSR correctness results -/

/-- The `{id, isZSpring}` records of the springs incident to vertex `v`,
indexed by position in the spring array, in construction order. -/
def indexedIncident (springs : List VSpring) (v : Nat) : List (Nat × Bool) :=
  (List.range springs.length).filterMap fun i =>
    if (springs.getD i dfltSpring).vertex0 == v ||
        (springs.getD i dfltSpring).vertex1 == v then
      some (i, (springs.getD i dfltSpring).isZSpring)
    else none

/-- The ids of the springs having `v` as an endpoint, in construction
order (positions in the spring array). -/
def incidentSpringIds (springs : List VSpring) (v : Nat) : List Nat :=
  (List.range springs.length).filter fun i =>
    (springs.getD i dfltSpring).vertex0 == v || (springs.getD i dfltSpring).vertex1 == v

/-- Closed form of the offset recorded by `setupVerletVertexBuffers` for
vertex `v`: total spring-list contribution of the vertices before it. -/
def csrOffset (vs : List VVertex) (v : Nat) : Nat :=
  ((vs.take v).map fun u => if u.isFixed then 0 else u.springIds.length).sum

/-- Closed form of `springListArray`: concatenation of the movable
vertices' spring-id lists in vertex order. -/
def csrList (vs : List VVertex) : List Nat :=
  vs.flatMap fun u => if u.isFixed then [] else u.springIds.map Prod.fst

/-- The adjacency slice `[offset, offset + count)` of vertex `v` in the
buffers built by `setupVerletVertexBuffers`. -/
def adjacencySlice (g : Geom) (v : Nat) : List Nat :=
  let vb := setupVerletVertexBuffers g
  ((vb.2.drop ((vb.1.getD v ⟨false, 0, 0⟩).springPointer)).take
    ((vb.1.getD v ⟨false, 0, 0⟩).springCount))

/-! ## Concrete instances used by witnesses and counterexamples

A 1×1-segment build: two 2×2 layers (8 vertices, all on the perimeter and
hence fixed), 6 in-plane springs per layer and 4 Z-springs (ids 12–15). -/

/-- The `vertexParamsArray` entry of vertex `v`. -/
def vertexParamsOf (g : Geom) (v : Nat) : VertexParams :=
  (setupVerletVertexBuffers g).1.getD v ⟨false, 0, 0⟩

/-- A small built geometry (`nx = ny = 1`, standard extents and thickness). -/
def demoGeom : Geom := setupVerletGeometry 1 1 (3 / 2) (3 / 2) (3 / 1000) (8 / 10)

/-- Kernel-facing buffers of `demoGeom`. -/
def demoTopo : SimTopo := mkSimTopo demoGeom

/-- Arbitrary but concrete runtime uniforms. -/
def demoParams : StepParams :=
  { dampening := 99 / 100,
    spherePosition := Vec3.zero,
    zSpringStiffness := 1,
    inPlaneStiffness := 1,
    sphereRadius := 12 / 100,
    cylinderHeight := 0,
    sphereEnabled := 1 }

/-- State of `demoTopo` in which the Z-spring 12 (top vertex 0 to bottom
vertex 4, rest length `3/1000`) is stretched to length `2003/2000`,
far beyond the break threshold. -/
def demoStretchZ : SimState :=
  { initSimState demoTopo with
    pos := fun v =>
      if v == 4 then ⟨-(3 / 4), -1, -(3 / 4)⟩ else demoTopo.restPosition v }

/-- State of `demoTopo` in which spring 0 (vertices 1 and 0, rest length
`3/2`) is stretched to length `6000003/2000`, a stretch ratio above
`999999` (used against the disabled-breakage branch on Z-spring 12 as
well: vertex 4 is pulled to `y = -3000`). -/
def demoStretchFar : SimState :=
  { initSimState demoTopo with
    pos := fun v =>
      if v == 4 then ⟨-(3 / 4), -3000, -(3 / 4)⟩ else demoTopo.restPosition v }

/-- A tiny literal topology (one spring between vertices 0 and 1, vertex 0
movable, vertex 1 fixed) for cheap witness evaluation of the tick
functions. -/
def tinyTopo : SimTopo :=
  { vertexCount := 2,
    springCount := 1,
    isFixed := fun v => v == 1,
    numSprings := fun v => if v == 0 then 1 else 0,
    springPointer := fun _ => 0,
    springList := fun _ => 0,
    sv0 := fun _ => 0,
    sv1 := fun _ => 1,
    restLength := fun _ => 1,
    isZ := fun _ => false,
    baseStiffness := fun _ => 2 / 10,
    restPosition := fun v => if v == 0 then Vec3.zero else ⟨2, 0, 0⟩ }

/-- A concrete state of `tinyTopo` with a nonzero force accumulator on
vertex 0 and spring 0 already broken. -/
def tinyState : SimState :=
  { pos := fun v => if v == 0 then Vec3.zero else ⟨2, 0, 0⟩,
    force := fun v => if v == 0 then ⟨1 / 2, 0, 0⟩ else Vec3.zero,
    stiff := fun _ => 0,
    broken := fun _ => false,
    sforce := fun _ => Vec3.zero }

/-- Probe uniforms for the concrete pure-sphere scenario: radius `0.1`,
probe at the origin, zero cylinder height. -/
def demoPureParams : StepParams :=
  { demoParams with
    sphereRadius := 1 / 10,
    spherePosition := Vec3.zero,
    cylinderHeight := 0 }

/-! ## Theorems -/

/-- Lemma: `nsqrtAux` computes the same value as the well-founded
`Nat.sqrt.iter` whenever it has at least `guess` fuel. -/
theorem nsqrtAux_eq_iter (n : Nat) :
    ∀ fuel guess : Nat, guess ≤ fuel →
      nsqrtAux fuel n guess = Nat.sqrt.iter n guess := by
  intro fuel
  induction fuel with
  | zero =>
    intro guess hg
    have h0 : guess = 0 := Nat.le_zero.mp hg
    subst h0
    rw [Nat.sqrt.iter]
    simp [nsqrtAux]
  | succ f ih =>
    intro guess hg
    rw [Nat.sqrt.iter]
    simp only [nsqrtAux]
    by_cases hlt : (guess + n / guess) / 2 < guess
    · simp only [hlt, if_true]
      exact ih _ (Nat.le_of_lt_succ (Nat.lt_of_lt_of_le hlt hg))
    · simp [hlt]

/-- The fuel-based integer square root agrees with `Nat.sqrt`. -/
theorem nsqrt_eq_sqrt (n : Nat) : nsqrt n = Nat.sqrt n := by
  rw [nsqrt, Nat.sqrt]
  by_cases h : n ≤ 1
  · simp [h]
  · simp only [h, if_false]
    exact nsqrtAux_eq_iter n n (n / 2) (Nat.div_le_self n 2)

/-- The fuel-based rational square root agrees with `Rat.sqrt`. -/
theorem qsqrt_eq_sqrt (q : ℚ) : qsqrt q = Rat.sqrt q := by
  rw [qsqrt, Rat.sqrt, Int.sqrt]
  simp [nsqrt_eq_sqrt]

/-- Exactness of `qsqrt` on perfect squares. -/
theorem qsqrt_sq (a : ℚ) : qsqrt (a * a) = abs a := by
  rw [qsqrt_eq_sqrt]
  exact Rat.sqrt_eq a

/-- Length of a vector whose squared norm is a known perfect square. -/
theorem vlen_eq (v : Vec3) (a : ℚ) (h : v.normSq = a * a) :
    vlen v = abs a := by
  rw [vlen, h, qsqrt_sq]

/-- Scaling by zero yields the zero vector. -/
theorem Vec3.smul_zero_vec (v : Vec3) : Vec3.smul 0 v = Vec3.zero := by
  simp [Vec3.smul, Vec3.zero]

/-- In pure-sphere mode the shader's collision block reduces to the
pure-sphere push-out (the cylinder and bottom-cap branches are disabled
by their `cylinderHeight > 0` guards). -/
theorem collisionDisp_pure (p : StepParams) (newPos : Vec3)
    (h : p.cylinderHeight ≤ 0) :
    collisionDisp p newPos =
      Vec3.smul (max (p.sphereRadius - vlen (Vec3.sub newPos p.spherePosition)) 0)
        (vnormalize (Vec3.sub newPos p.spherePosition)) := by
  have h1 : decide (0 < p.cylinderHeight) = false := by
    simp [not_lt.mpr h]
  have h2 : decide (p.cylinderHeight ≤ 0) = true := by
    simp [h]
  simp [collisionDisp, h1, h2]

/-- C8: in pure-sphere mode (probe height ≤ 0) the collision
displacement for a tentative position at distance `d` from the probe is
`(radius - d)` times the normalized probe-to-tentative direction when
`radius - d > 0` and the zero vector otherwise; concretely, for probe
radius `0.1` at the origin and a tentative position at distance `0.05`,
the displacement is the outward vector of magnitude exactly `0.05`. -/
theorem c8_pure_sphere_displacement (p : StepParams) (newPos : Vec3)
    (h : p.cylinderHeight ≤ 0) :
    (collisionDisp p newPos =
      if 0 < p.sphereRadius - vlen (Vec3.sub newPos p.spherePosition) then
        Vec3.smul (p.sphereRadius - vlen (Vec3.sub newPos p.spherePosition))
          (vnormalize (Vec3.sub newPos p.spherePosition))
      else Vec3.zero) ∧
    collisionDisp demoPureParams ⟨1 / 20, 0, 0⟩ = ⟨1 / 20, 0, 0⟩ ∧
    vlen (collisionDisp demoPureParams ⟨1 / 20, 0, 0⟩) = 1 / 20 := by
  refine ⟨?_, by decide, by decide⟩
  rw [collisionDisp_pure p newPos h]
  by_cases hp : 0 < p.sphereRadius - vlen (Vec3.sub newPos p.spherePosition)
  · rw [if_pos hp, max_eq_left (le_of_lt hp)]
  · rw [if_neg hp, max_eq_right (not_lt.mp hp), Vec3.smul_zero_vec]

/-- Witness for C8 at the concrete scenario of the claim. -/
theorem c8_pure_sphere_displacement_witness :
    demoPureParams.cylinderHeight ≤ 0 ∧
      collisionDisp demoPureParams ⟨1 / 20, 0, 0⟩ = ⟨1 / 20, 0, 0⟩ :=
  ⟨by decide,
    (c8_pure_sphere_displacement demoPureParams ⟨1 / 20, 0, 0⟩ (by decide)).2.1⟩

/-- A spring whose stretch ratio exceeds the compiled threshold has its
stored stiffness zeroed and both endpoints' broken indicators set by the
spring kernel, regardless of its type. -/
theorem springStage_break (enabled : Bool) (p : StepParams) (t : SimTopo)
    (st : SimState) (i : Nat) (hi : i < t.springCount)
    (hbr : breakThresholdValue enabled < springDist t st i / t.restLength i) :
    (computeSpringForcesK enabled p t st).stiff i = 0 ∧
    (computeSpringForcesK enabled p t st).broken (t.sv0 i) = true ∧
    (computeSpringForcesK enabled p t st).broken (t.sv1 i) = true := by
  have hb : springBreaks enabled t st i = true := by
    simp [springBreaks, hbr]
  refine ⟨by simp [computeSpringForcesK, hi, hb], ?_, ?_⟩
  · simp only [computeSpringForcesK, Bool.or_eq_true, List.any_eq_true]
    exact Or.inr ⟨i, List.mem_range.mpr hi, by simp [hb]⟩
  · simp only [computeSpringForcesK, Bool.or_eq_true, List.any_eq_true]
    exact Or.inr ⟨i, List.mem_range.mpr hi, by simp [hb]⟩

/-- A spring whose break test does not fire keeps its stored stiffness. -/
theorem springStage_stiff_eq (enabled : Bool) (p : StepParams) (t : SimTopo)
    (st : SimState) (i : Nat) (h : springBreaks enabled t st i = false) :
    (computeSpringForcesK enabled p t st).stiff i = st.stiff i := by
  simp [computeSpringForcesK, h]

/-- The spring kernel maps zero stiffness to zero stiffness. -/
theorem springStage_stiff_zero (enabled : Bool) (p : StepParams) (t : SimTopo)
    (st : SimState) (i : Nat) (h : st.stiff i = 0) :
    (computeSpringForcesK enabled p t st).stiff i = 0 := by
  by_cases hb : i < t.springCount ∧ springBreaks enabled t st i = true
  · simp [computeSpringForcesK, hb.1, hb.2]
  · simp only [computeSpringForcesK]
    rw [if_neg, h]
    simp only [Bool.and_eq_true, decide_eq_true_eq]
    exact fun hc => hb ⟨hc.1, hc.2⟩

/-- A whole tick maps zero stiffness to zero stiffness (the vertex kernel
never writes the stiffness buffer). -/
theorem tick_stiff_zero (enabled : Bool) (p : StepParams) (t : SimTopo)
    (st : SimState) (i : Nat) (h : st.stiff i = 0) :
    (tick enabled p t st).stiff i = 0 := by
  show (computeVertexForcesK p t (computeSpringForcesK enabled p t st)).stiff i = 0
  exact springStage_stiff_zero enabled p t st i h

/-- A tick leaves the position of a fixed vertex untouched: the vertex
kernel returns before writing and the spring kernel writes no positions. -/
theorem tick_pos_fixed (enabled : Bool) (p : StepParams) (t : SimTopo)
    (st : SimState) (v : Nat) (hfix : t.isFixed v = true) :
    (tick enabled p t st).pos v = st.pos v := by
  simp [tick, computeVertexForcesK, computeSpringForcesK, hfix]

/-- C1 (amended): the break test of the Spring Force Stage applies to
every spring uniformly; in particular a layer-link (Z-) spring whose
stretch ratio exceeds the threshold has its stored stiffness zeroed and
both endpoints' broken indicators set, exactly like an in-plane spring. -/
theorem c1_layer_link_springs_break (enabled : Bool) (p : StepParams)
    (t : SimTopo) (st : SimState) (i : Nat) (hi : i < t.springCount)
    (hz : t.isZ i = true)
    (hbr : breakThresholdValue enabled < springDist t st i / t.restLength i) :
    (computeSpringForcesK enabled p t st).stiff i = 0 ∧
    (computeSpringForcesK enabled p t st).broken (t.sv0 i) = true ∧
    (computeSpringForcesK enabled p t st).broken (t.sv1 i) = true :=
  springStage_break enabled p t st i hi hbr

/-- Counterexample to C1 as stated: in the built 1×1-segment topology,
Z-spring 12 (endpoints 0 and 4, base stiffness `0.8`, rest length
`0.003`) is stretched past the threshold, and the Spring Force Stage
zeroes its stiffness and flags both endpoints. -/
theorem c1_layer_link_break_cex :
    demoTopo.isZ 12 = true ∧
    demoStretchZ.stiff 12 = 8 / 10 ∧
    (computeSpringForcesK true demoParams demoTopo demoStretchZ).stiff 12 = 0 ∧
    (computeSpringForcesK true demoParams demoTopo demoStretchZ).broken 0 = true ∧
    (computeSpringForcesK true demoParams demoTopo demoStretchZ).broken 4 = true := by
  refine ⟨by decide, by decide, by decide, by decide, by decide⟩

/-- Witness for C1 (amended) at Z-spring 12 of the built demo topology. -/
theorem c1_layer_link_springs_break_witness :
    12 < demoTopo.springCount ∧ demoTopo.isZ 12 = true ∧
      breakThresholdValue true <
        springDist demoTopo demoStretchZ 12 / demoTopo.restLength 12 ∧
      (computeSpringForcesK true demoParams demoTopo demoStretchZ).stiff 12 = 0 :=
  ⟨by decide, by decide, by decide,
    (c1_layer_link_springs_break true demoParams demoTopo demoStretchZ 12
      (by decide) (by decide) (by decide)).1⟩

/-- C2 (amended): with breakage enabled, a stretch ratio beyond the
`1.9` threshold zeroes the stored stiffness and flags both endpoints,
and the write is idempotent on an already-broken spring; with breakage
disabled the compiled threshold is `999999` rather than infinity, so the
stiffness is kept whenever the stretch ratio stays at or below `999999`
(but not beyond, see the counterexample). -/
theorem c2_breakage_rule (enabled : Bool) (p : StepParams) (t : SimTopo)
    (st : SimState) (i : Nat) (hi : i < t.springCount) :
    (enabled = true →
      SPRING_BREAK_THRESHOLD < springDist t st i / t.restLength i →
      (computeSpringForcesK enabled p t st).stiff i = 0 ∧
      (computeSpringForcesK enabled p t st).broken (t.sv0 i) = true ∧
      (computeSpringForcesK enabled p t st).broken (t.sv1 i) = true) ∧
    (st.stiff i = 0 → (computeSpringForcesK enabled p t st).stiff i = 0) ∧
    (enabled = false →
      springDist t st i / t.restLength i ≤ 999999 →
      (computeSpringForcesK enabled p t st).stiff i = st.stiff i) := by
  refine ⟨?_, springStage_stiff_zero enabled p t st i, ?_⟩
  · intro he hbr
    subst he
    exact springStage_break true p t st i hi hbr
  · intro he hle
    subst he
    refine springStage_stiff_eq false p t st i ?_
    simp only [springBreaks, breakThresholdValue, Bool.if_false_left]
    simp [not_lt.mpr hle]

/-- Counterexample to C2 as stated: with breakage disabled the compiled
threshold is `999999`, not infinity; Z-spring 12 stretched to ratio
`1000000.5` is still zeroed. -/
theorem c2_breakage_disabled_cex :
    demoStretchFar.stiff 12 = 8 / 10 ∧
    breakThresholdValue false <
      springDist demoTopo demoStretchFar 12 / demoTopo.restLength 12 ∧
    (computeSpringForcesK false demoParams demoTopo demoStretchFar).stiff 12 = 0 := by
  refine ⟨by decide, by decide, by decide⟩

/-- Witness for C2 (amended) at spring 12 of the built demo topology. -/
theorem c2_breakage_rule_witness :
    12 < demoTopo.springCount ∧
      SPRING_BREAK_THRESHOLD <
        springDist demoTopo demoStretchZ 12 / demoTopo.restLength 12 ∧
      (computeSpringForcesK true demoParams demoTopo demoStretchZ).broken 0 = true :=
  ⟨by decide, by decide,
    ((c2_breakage_rule true demoParams demoTopo demoStretchZ 12 (by decide)).1
      rfl (by decide)).2.1⟩

/-- C3: once a spring's stored stiffness is 0 it stays 0 across any
sequence of ticks with arbitrary per-tick control parameters, and only
`resetSimulationBuffers` restores it to its base value. -/
theorem c3_monotonic_breakage (t : SimTopo) (i : Nat) :
    (∀ (steps : List (Bool × StepParams)) (st : SimState),
      st.stiff i = 0 → (runTicks t steps st).stiff i = 0) ∧
    (∀ st : SimState, i < t.springCount →
      (resetSimulationBuffers t st).stiff i = t.baseStiffness i) := by
  constructor
  · intro steps
    induction steps with
    | nil => intro st h; exact h
    | cons q qs ih =>
      intro st h
      exact ih (tick q.1 q.2 t st) (tick_stiff_zero q.1 q.2 t st i h)
  · intro st hi
    simp [resetSimulationBuffers, hi]

/-- Witness for C3 on a concrete broken spring of the tiny topology. -/
theorem c3_monotonic_breakage_witness :
    tinyState.stiff 0 = 0 ∧ 0 < tinyTopo.springCount ∧
      (runTicks tinyTopo [(true, demoParams), (false, demoPureParams)] tinyState).stiff 0 = 0 ∧
      (resetSimulationBuffers tinyTopo tinyState).stiff 0 = tinyTopo.baseStiffness 0 :=
  ⟨by decide, by decide,
    (c3_monotonic_breakage tinyTopo 0).1 _ tinyState (by decide),
    (c3_monotonic_breakage tinyTopo 0).2 tinyState (by decide)⟩

/-- C5: a fixed vertex's position after any number of ticks (with
arbitrary per-tick control parameters) equals its initial position
exactly. -/
theorem c5_fixed_vertex_invariance (t : SimTopo) (v : Nat)
    (hfix : t.isFixed v = true) :
    ∀ (steps : List (Bool × StepParams)) (st : SimState),
      (runTicks t steps st).pos v = st.pos v := by
  intro steps
  induction steps with
  | nil => intro st; rfl
  | cons q qs ih =>
    intro st
    exact (ih (tick q.1 q.2 t st)).trans (tick_pos_fixed q.1 q.2 t st v hfix)

/-- Witness for C5 at the fixed vertex 0 of the built demo topology. -/
theorem c5_fixed_vertex_invariance_witness :
    demoTopo.isFixed 0 = true ∧
      (runTicks demoTopo [(true, demoParams), (true, demoParams)]
        demoStretchZ).pos 0 = demoStretchZ.pos 0 :=
  ⟨by decide,
    c5_fixed_vertex_invariance demoTopo 0 (by decide)
      [(true, demoParams), (true, demoParams)] demoStretchZ⟩

/-- C6: the spring kernel stores at slot `i` exactly the pre-split Hooke
force `(k*m) * (dist - L0) * delta / dist * 0.5`, where `k` is the
stiffness stored at `i` (after the break check of the same dispatch,
per the stage's order), `m` the per-category runtime multiplier,
`delta = pB - pA` and `dist = max(|delta|, 1e-6)`. -/
theorem c6_spring_force_formula (enabled : Bool) (p : StepParams)
    (t : SimTopo) (st : SimState) (i : Nat) (hi : i < t.springCount) :
    (computeSpringForcesK enabled p t st).sforce i =
      Vec3.smul
        (((computeSpringForcesK enabled p t st).stiff i * stiffnessMultiplier p (t.isZ i)) *
          (springDist t st i - t.restLength i) * (1 / 2) / springDist t st i)
        (springDelta t st i) := by
  by_cases hb : springBreaks enabled t st i = true
  · simp only [computeSpringForcesK, hi, hb, springStoredForce, decide_True,
      Bool.and_self, if_true, if_pos]
    congr 1
    ring
  · have hb2 : springBreaks enabled t st i = false := Bool.not_eq_true _ |>.mp hb
    simp only [computeSpringForcesK, hi, hb2, springStoredForce, Bool.and_false,
      if_false, Bool.false_eq_true, if_true, if_pos]
    congr 1
    ring

/-- Witness for C6 at spring 0 of the demo topology in its initial state. -/
theorem c6_spring_force_formula_witness :
    0 < demoTopo.springCount ∧
      (computeSpringForcesK true demoParams demoTopo (initSimState demoTopo)).sforce 0 =
        Vec3.smul
          (((computeSpringForcesK true demoParams demoTopo (initSimState demoTopo)).stiff 0 *
              stiffnessMultiplier demoParams (demoTopo.isZ 0)) *
            (springDist demoTopo (initSimState demoTopo) 0 - demoTopo.restLength 0) *
            (1 / 2) / springDist demoTopo (initSimState demoTopo) 0)
          (springDelta demoTopo (initSimState demoTopo) 0) :=
  ⟨by decide,
    c6_spring_force_formula true demoParams demoTopo (initSimState demoTopo) 0 (by decide)⟩

/-- C7: `resetSimulationBuffers` restores every vertex position to its
construction-time rest position, every spring stiffness to its base
value and clears every broken indicator, leaves the (immutable) topology
buffers untouched by construction, and is idempotent. -/
theorem c7_reset_semantics (t : SimTopo) (st : SimState) :
    resetSimulationBuffers t (resetSimulationBuffers t st) =
      resetSimulationBuffers t st ∧
    (∀ v, v < t.vertexCount →
      (resetSimulationBuffers t st).pos v = t.restPosition v) ∧
    (∀ i, i < t.springCount →
      (resetSimulationBuffers t st).stiff i = t.baseStiffness i) ∧
    (∀ v, v < t.vertexCount →
      (resetSimulationBuffers t st).broken v = false) := by
  refine ⟨?_, ?_, ?_, ?_⟩
  · apply SimState.ext
    · funext v
      by_cases h : v < t.vertexCount <;> simp [resetSimulationBuffers, h]
    · rfl
    · funext i
      by_cases h : i < t.springCount <;> simp [resetSimulationBuffers, h]
    · funext v
      by_cases h : v < t.vertexCount <;> simp [resetSimulationBuffers, h]
    · rfl
  · intro v hv; simp [resetSimulationBuffers, hv]
  · intro i hi; simp [resetSimulationBuffers, hi]
  · intro v hv; simp [resetSimulationBuffers, hv]

/-- Witness for C7 on a concrete state of the tiny topology. -/
theorem c7_reset_semantics_witness :
    resetSimulationBuffers tinyTopo (resetSimulationBuffers tinyTopo tinyState) =
      resetSimulationBuffers tinyTopo tinyState ∧
    0 < tinyTopo.vertexCount ∧
    (resetSimulationBuffers tinyTopo tinyState).pos 0 = tinyTopo.restPosition 0 ∧
    (resetSimulationBuffers tinyTopo tinyState).stiff 0 = tinyTopo.baseStiffness 0 ∧
    (resetSimulationBuffers tinyTopo tinyState).broken 0 = false :=
  ⟨(c7_reset_semantics tinyTopo tinyState).1, by decide,
    (c7_reset_semantics tinyTopo tinyState).2.1 0 (by decide),
    (c7_reset_semantics tinyTopo tinyState).2.2.1 0 (by decide),
    (c7_reset_semantics tinyTopo tinyState).2.2.2 0 (by decide)⟩

/-- C10: `resetSimulationBuffers` leaves the per-vertex force/velocity
accumulator buffer untouched, so on the first tick after a reset a
movable vertex integrates from its rest position with the damped
pre-reset accumulator `dampening * force`. -/
theorem c10_reset_keeps_accumulator (enabled : Bool) (p : StepParams)
    (t : SimTopo) (st : SimState) :
    (resetSimulationBuffers t st).force = st.force ∧
    (∀ v, v < t.vertexCount → t.isFixed v = false →
      (tick enabled p t (resetSimulationBuffers t st)).force v =
        (let st1 := computeSpringForcesK enabled p t (resetSimulationBuffers t st)
         let f1 := applyGravity t (accumulateSpringForces t st1.sforce v
           (Vec3.smul p.dampening (st.force v)))
         Vec3.add f1 (Vec3.smul p.sphereEnabled
           (collisionDisp p (Vec3.add (t.restPosition v) f1))))) := by
  refine ⟨rfl, ?_⟩
  intro v hv hfix
  have hpos : (computeSpringForcesK enabled p t (resetSimulationBuffers t st)).pos v =
      t.restPosition v := by
    simp [computeSpringForcesK, resetSimulationBuffers, hv]
  have hforce : (computeSpringForcesK enabled p t (resetSimulationBuffers t st)).force v =
      st.force v := rfl
  simp only [tick, computeVertexForcesK, hv, hfix, Bool.not_false, decide_True,
    Bool.and_self, if_true, if_pos, vertexNewForce, hpos, hforce]

/-- Witness for C10 at the movable vertex 0 of the tiny topology. -/
theorem c10_reset_keeps_accumulator_witness :
    0 < tinyTopo.vertexCount ∧ tinyTopo.isFixed 0 = false ∧
      (resetSimulationBuffers tinyTopo tinyState).force = tinyState.force ∧
      (tick true demoParams tinyTopo (resetSimulationBuffers tinyTopo tinyState)).force 0 =
        (let st1 := computeSpringForcesK true demoParams tinyTopo
           (resetSimulationBuffers tinyTopo tinyState)
         let f1 := applyGravity tinyTopo (accumulateSpringForces tinyTopo st1.sforce 0
           (Vec3.smul demoParams.dampening (tinyState.force 0)))
         Vec3.add f1 (Vec3.smul demoParams.sphereEnabled
           (collisionDisp demoParams (Vec3.add (tinyTopo.restPosition 0) f1)))) :=
  ⟨by decide, by decide,
    (c10_reset_keeps_accumulator true demoParams tinyTopo tinyState).1,
    (c10_reset_keeps_accumulator true demoParams tinyTopo tinyState).2 0
      (by decide) (by decide)⟩

/-- Lemma: `pushSpringId` never changes the number of vertices. -/
theorem pushSpringId_length (vs : List VVertex) (v sid : Nat) (isZ : Bool) :
    (pushSpringId vs v sid isZ).length = vs.length := by
  unfold pushSpringId
  cases h : vs.get? v <;> simp

/-- Lemma: `addVerletSpring` never changes the number of vertices. -/
theorem addVerletSpring_vertexCount (g : Geom) (v0 v1 : Nat) (k : ℚ)
    (isZ : Bool) :
    (addVerletSpring g v0 v1 k isZ).verletVertices.length =
      g.verletVertices.length := by
  simp [addVerletSpring, pushSpringId_length]

/-- Running any list of spring-creation calls keeps the vertex count. -/
theorem runSpringCmds_vertexCount (cmds : List SpringCmd) (g : Geom) :
    (runSpringCmds g cmds).verletVertices.length =
      g.verletVertices.length := by
  induction cmds generalizing g with
  | nil => rfl
  | cons c cs ih =>
    exact (ih (addVerletSpring g c.a c.b c.k c.isZ)).trans
      (addVerletSpring_vertexCount g c.a c.b c.k c.isZ)

/-- One layer holds `(nx+1) * (ny+1)` vertices. -/
theorem layerVertices_length (nx ny : Nat) (w h yc : ℚ) (b : Nat) :
    (layerVertices nx ny w h yc b).length = (nx + 1) * (ny + 1) := by
  simp [layerVertices, List.length_flatMap, Function.comp_def, List.map_const',
    List.sum_replicate, smul_eq_mul, Nat.mul_comm]

/-- Both layers together hold `2 * (nx+1) * (ny+1)` vertices. -/
theorem gridVertices_length (nx ny : Nat) (w h th : ℚ) :
    (gridVertices nx ny w h th).length = 2 * ((nx + 1) * (ny + 1)) := by
  simp [gridVertices, layerVertices_length]
  ring

/-- C9 (amended): `setupVerletGeometry` performs no configuration
validation: for every grid size (including zero segments) and every
thickness (including non-positive ones) it returns normally and builds a
graph with `2 * (nx+1) * (ny+1)` vertices, instead of failing fast with
a descriptive rejection. -/
theorem c9_no_validation (nx ny : Nat) (w h th zk : ℚ) :
    (setupVerletGeometry nx ny w h th zk).verletVertices.length =
      2 * ((nx + 1) * (ny + 1)) := by
  rw [setupVerletGeometry, runSpringCmds_vertexCount]
  exact gridVertices_length nx ny w h th

/-- Counterexample to C9 as stated: with zero grid dimensions and a
negative thickness, `setupVerletGeometry` silently builds a 2-vertex,
1-spring graph rather than rejecting the configuration. -/
theorem c9_invalid_config_cex :
    (setupVerletGeometry 0 0 (3 / 2) (3 / 2) (-(1 / 100)) (8 / 10)).verletVertices.length = 2 ∧
    (setupVerletGeometry 0 0 (3 / 2) (3 / 2) (-(1 / 100)) (8 / 10)).verletSprings.length = 1 := by
  refine ⟨by decide, by decide⟩

/-! ### C4: adjacency-structure correctness -/

theorem pushSpringId_getD_self (vs : List VVertex) (v sid : Nat) (isZ : Bool)
    (hv : v < vs.length) :
    (pushSpringId vs v sid isZ).getD v dfltVertex =
      { vs.getD v dfltVertex with
        springIds := (vs.getD v dfltVertex).springIds ++ [(sid, isZ)] } := by
  have h1 : vs.get? v = some (vs.getD v dfltVertex) := by
    rw [List.get?_eq_getElem?, List.getElem?_eq_getElem hv, List.getD_eq_getElem?_getD,
      List.getElem?_eq_getElem hv, Option.getD_some]
  rw [pushSpringId, h1]
  rw [List.getD_eq_getElem?_getD, List.getElem?_set_self (by simpa using hv), Option.getD_some]

theorem pushSpringId_getD_ne (vs : List VVertex) (v w sid : Nat) (isZ : Bool)
    (hne : v ≠ w) :
    (pushSpringId vs v sid isZ).getD w dfltVertex = vs.getD w dfltVertex := by
  rw [pushSpringId]
  cases h : vs.get? v with
  | none => rfl
  | some va =>
    rw [List.getD_eq_getElem?_getD, List.getElem?_set_ne hne, List.getD_eq_getElem?_getD]

theorem indexedIncident_append (springs : List VSpring) (s : VSpring) (v : Nat) :
    indexedIncident (springs ++ [s]) v =
      indexedIncident springs v ++
        (if s.vertex0 == v || s.vertex1 == v then [(springs.length, s.isZSpring)] else []) := by
  unfold indexedIncident
  rw [List.length_append, List.length_singleton, List.range_succ, List.filterMap_append]
  congr 1
  · apply List.filterMap_congr
    intro i hi
    have hilt : i < springs.length := List.mem_range.mp hi
    rw [List.getD_eq_getElem?_getD, List.getElem?_append_left hilt,
      List.getD_eq_getElem?_getD]
  · have hg : (springs ++ [s]).getD springs.length dfltSpring = s := by
      rw [List.getD_eq_getElem?_getD, List.getElem?_concat_length, Option.getD_some]
    simp only [List.filterMap_cons, List.filterMap_nil, hg]
    by_cases hc : (s.vertex0 == v || s.vertex1 == v) = true
    · simp [hc]
    · simp [Bool.not_eq_true _ |>.mp hc]

theorem addVerletSpring_adjacency (g : Geom) (c : SpringCmd)
    (hab : c.a ≠ c.b)
    (hids : ∀ j, j < g.verletSprings.length →
      (g.verletSprings.getD j dfltSpring).id = j)
    (hadj : ∀ v, v < g.verletVertices.length →
      (g.verletVertices.getD v dfltVertex).springIds = indexedIncident g.verletSprings v) :
    (∀ j, j < (addVerletSpring g c.a c.b c.k c.isZ).verletSprings.length →
      ((addVerletSpring g c.a c.b c.k c.isZ).verletSprings.getD j dfltSpring).id = j) ∧
    (∀ v, v < (addVerletSpring g c.a c.b c.k c.isZ).verletVertices.length →
      ((addVerletSpring g c.a c.b c.k c.isZ).verletVertices.getD v dfltVertex).springIds =
        indexedIncident (addVerletSpring g c.a c.b c.k c.isZ).verletSprings v) := by
  set n := g.verletSprings.length with hn
  set s : VSpring := ⟨n, c.a, c.b, c.k, c.isZ⟩ with hs
  have hsprings : (addVerletSpring g c.a c.b c.k c.isZ).verletSprings =
      g.verletSprings ++ [s] := rfl
  constructor
  · intro j hj
    rw [hsprings] at hj ⊢
    rw [List.length_append, List.length_singleton] at hj
    rcases Nat.lt_or_ge j n with hlt | hge
    · rw [List.getD_eq_getElem?_getD, List.getElem?_append_left hlt,
        ← List.getD_eq_getElem?_getD]
      exact hids j hlt
    · have hj2 : j = n := by omega
      subst hj2
      rw [List.getD_eq_getElem?_getD, List.getElem?_concat_length, Option.getD_some]
  · intro v hv
    have hvlen : v < g.verletVertices.length := by
      rwa [addVerletSpring, pushSpringId_length, pushSpringId_length] at hv
    rw [hsprings, indexedIncident_append]
    have hverts : (addVerletSpring g c.a c.b c.k c.isZ).verletVertices =
        pushSpringId (pushSpringId g.verletVertices c.a n c.isZ) c.b n c.isZ := rfl
    rw [hverts]
    by_cases hva : v = c.a
    · rw [hva] at hvlen ⊢
      rw [pushSpringId_getD_ne _ _ _ _ _ (Ne.symm hab),
        pushSpringId_getD_self _ _ _ _ hvlen]
      have hcond : (s.vertex0 == c.a || s.vertex1 == c.a) = true := by
        simp [hs]
      rw [hcond]
      simp only [if_true]
      rw [hadj c.a hvlen]
    · by_cases hvb : v = c.b
      · rw [hvb] at hvlen ⊢
        have hlen2 : c.b < (pushSpringId g.verletVertices c.a n c.isZ).length := by
          rwa [pushSpringId_length]
        rw [pushSpringId_getD_self _ _ _ _ hlen2,
          pushSpringId_getD_ne _ _ _ _ _ hab]
        have hcond : (s.vertex0 == c.b || s.vertex1 == c.b) = true := by
          simp [hs]
        rw [hcond]
        simp only [if_true]
        rw [hadj c.b hvlen]
      · rw [pushSpringId_getD_ne _ _ _ _ _ fun h => hvb h.symm,
          pushSpringId_getD_ne _ _ _ _ _ fun h => hva h.symm]
        have hcond : (s.vertex0 == v || s.vertex1 == v) = false := by
          simp only [hs, Bool.or_eq_false_iff, beq_eq_false_iff_ne]
          exact ⟨fun h => hva h.symm, fun h => hvb h.symm⟩
        rw [hcond]
        simp only [Bool.false_eq_true, if_false, List.append_nil]
        exact hadj v hvlen

theorem runSpringCmds_adjacency (cmds : List SpringCmd) (g : Geom)
    (hwf : ∀ c ∈ cmds, c.a ≠ c.b)
    (hids : ∀ j, j < g.verletSprings.length →
      (g.verletSprings.getD j dfltSpring).id = j)
    (hadj : ∀ v, v < g.verletVertices.length →
      (g.verletVertices.getD v dfltVertex).springIds = indexedIncident g.verletSprings v) :
    (∀ j, j < (runSpringCmds g cmds).verletSprings.length →
      ((runSpringCmds g cmds).verletSprings.getD j dfltSpring).id = j) ∧
    (∀ v, v < (runSpringCmds g cmds).verletVertices.length →
      ((runSpringCmds g cmds).verletVertices.getD v dfltVertex).springIds =
        indexedIncident (runSpringCmds g cmds).verletSprings v) := by
  induction cmds generalizing g with
  | nil => exact ⟨hids, hadj⟩
  | cons c cs ih =>
    have hstep := addVerletSpring_adjacency g c (hwf c (List.mem_cons_self c cs)) hids hadj
    exact ih (addVerletSpring g c.a c.b c.k c.isZ)
      (fun c2 hc2 => hwf c2 (List.mem_cons_of_mem c hc2)) hstep.1 hstep.2

theorem gridVertices_springIds (nx ny : Nat) (w h th : ℚ) :
    ∀ u ∈ gridVertices nx ny w h th, u.springIds = [] := by
  intro u hu
  simp only [gridVertices, layerVertices, List.mem_append, List.mem_flatMap,
    List.mem_map, List.mem_range] at hu
  rcases hu with ⟨x, hx, y, hy, rfl⟩ | ⟨x, hx, y, hy, rfl⟩ <;> rfl

theorem vertexBufferStep_fixed (acc : List VertexParams × List Nat) (u : VVertex)
    (hf : u.isFixed = true) :
    vertexBufferStep acc u = (acc.1 ++ [⟨true, 0, 0⟩], acc.2) := by
  simp [vertexBufferStep, hf]

theorem vertexBufferStep_movable (acc : List VertexParams × List Nat) (u : VVertex)
    (hf : u.isFixed = false) :
    vertexBufferStep acc u =
      (acc.1 ++ [⟨false, u.springIds.length, acc.2.length⟩],
        acc.2 ++ u.springIds.map Prod.fst) := by
  simp [vertexBufferStep, hf]

theorem foldl_vertexBufferStep_slist (vs : List VVertex)
    (ps : List VertexParams) (sl : List Nat) :
    (vs.foldl vertexBufferStep (ps, sl)).2 = sl ++ csrList vs := by
  induction vs generalizing ps sl with
  | nil => simp [csrList]
  | cons u us ih =>
    rw [List.foldl_cons]
    by_cases hf : u.isFixed
    · rw [vertexBufferStep_fixed _ _ hf, ih]
      simp [csrList, hf]
    · rw [vertexBufferStep_movable _ _ (Bool.not_eq_true _ |>.mp hf), ih]
      simp [csrList, Bool.not_eq_true _ |>.mp hf]

theorem foldl_vertexBufferStep_front (vs : List VVertex)
    (ps : List VertexParams) (sl : List Nat) :
    ∃ tail, (vs.foldl vertexBufferStep (ps, sl)).1 = ps ++ tail := by
  induction vs generalizing ps sl with
  | nil => exact ⟨[], (List.append_nil ps).symm⟩
  | cons u us ih =>
    rw [List.foldl_cons]
    by_cases hf : u.isFixed
    · rw [vertexBufferStep_fixed _ _ hf]
      obtain ⟨tail, ht⟩ := ih (ps ++ [⟨true, 0, 0⟩]) sl
      exact ⟨⟨true, 0, 0⟩ :: tail, by rw [ht, List.append_assoc]; rfl⟩
    · rw [vertexBufferStep_movable _ _ (Bool.not_eq_true _ |>.mp hf)]
      obtain ⟨tail, ht⟩ := ih (ps ++ [⟨false, u.springIds.length, sl.length⟩])
        (sl ++ u.springIds.map Prod.fst)
      exact ⟨⟨false, u.springIds.length, sl.length⟩ :: tail,
        by rw [ht, List.append_assoc]; rfl⟩

theorem foldl_vertexBufferStep_params (vs : List VVertex) :
    ∀ (ps : List VertexParams) (sl : List Nat) (v : Nat), v < vs.length →
    (vs.foldl vertexBufferStep (ps, sl)).1.getD (ps.length + v) ⟨false, 0, 0⟩ =
      (if (vs.getD v dfltVertex).isFixed then ⟨true, 0, 0⟩
       else ⟨false, (vs.getD v dfltVertex).springIds.length, sl.length + csrOffset vs v⟩) := by
  induction vs with
  | nil => intro ps sl v hv; simp at hv
  | cons u us ih =>
    intro ps sl v hv
    rw [List.foldl_cons]
    cases v with
    | zero =>
      have hoff : csrOffset (u :: us) 0 = 0 := rfl
      rw [hoff, List.getD_cons_zero, Nat.add_zero, Nat.add_zero]
      by_cases hf : u.isFixed
      · rw [vertexBufferStep_fixed _ _ hf]
        obtain ⟨tail, ht⟩ := foldl_vertexBufferStep_front us (ps ++ [⟨true, 0, 0⟩]) sl
        rw [ht, List.append_assoc, List.getD_eq_getElem?_getD,
          List.getElem?_append_right (Nat.le_refl ps.length), Nat.sub_self]
        simp [hf]
      · have hf2 : u.isFixed = false := Bool.not_eq_true _ |>.mp hf
        rw [vertexBufferStep_movable _ _ hf2]
        obtain ⟨tail, ht⟩ := foldl_vertexBufferStep_front us
          (ps ++ [⟨false, u.springIds.length, sl.length⟩]) (sl ++ u.springIds.map Prod.fst)
        rw [ht, List.append_assoc, List.getD_eq_getElem?_getD,
          List.getElem?_append_right (Nat.le_refl ps.length), Nat.sub_self]
        simp [hf2]
    | succ w =>
      have hwlt : w < us.length := by simpa using hv
      rw [List.getD_cons_succ]
      have hoff : csrOffset (u :: us) (w + 1) =
          (if u.isFixed then 0 else u.springIds.length) + csrOffset us w := by
        simp [csrOffset, List.take_succ_cons]
      rw [hoff]
      by_cases hf : u.isFixed
      · rw [vertexBufferStep_fixed _ _ hf]
        have := ih (ps ++ [⟨true, 0, 0⟩]) sl w hwlt
        rw [List.length_append, List.length_singleton] at this
        rw [show ps.length + (w + 1) = ps.length + 1 + w by omega]
        rw [this]
        simp [hf]
      · have hf2 : u.isFixed = false := Bool.not_eq_true _ |>.mp hf
        rw [vertexBufferStep_movable _ _ hf2]
        have := ih (ps ++ [⟨false, u.springIds.length, sl.length⟩])
          (sl ++ u.springIds.map Prod.fst) w hwlt
        rw [List.length_append, List.length_singleton, List.length_append,
          List.length_map] at this
        rw [show ps.length + (w + 1) = ps.length + 1 + w by omega]
        rw [this]
        simp [hf2, Nat.add_assoc]

theorem csrList_cons (u : VVertex) (us : List VVertex) :
    csrList (u :: us) =
      (if u.isFixed then [] else u.springIds.map Prod.fst) ++ csrList us := by
  simp [csrList]

theorem csrList_slice (vs : List VVertex) :
    ∀ v : Nat, v < vs.length → (vs.getD v dfltVertex).isFixed = false →
    ((csrList vs).drop (csrOffset vs v)).take
        ((vs.getD v dfltVertex).springIds.length) =
      (vs.getD v dfltVertex).springIds.map Prod.fst := by
  induction vs with
  | nil => intro v hv; simp at hv
  | cons u us ih =>
    intro v hv hnf
    cases v with
    | zero =>
      rw [List.getD_cons_zero] at hnf ⊢
      have hoff : csrOffset (u :: us) 0 = 0 := rfl
      rw [hoff, List.drop_zero, csrList_cons, hnf]
      simp only [Bool.false_eq_true, if_false]
      exact List.take_left' (by rw [List.length_map])
    | succ w =>
      rw [List.getD_cons_succ] at hnf ⊢
      have hwlt : w < us.length := by simpa using hv
      have hoff : csrOffset (u :: us) (w + 1) =
          (if u.isFixed then [] else u.springIds.map Prod.fst).length +
            csrOffset us w := by
        by_cases hf : u.isFixed <;>
          simp [csrOffset, List.take_succ_cons, hf]
      rw [hoff, csrList_cons, ← List.drop_drop, List.drop_left]
      exact ih w hwlt hnf

theorem filterMap_if_fst {α β : Type} (l : List α) (p : α → Bool) (g : α → β) :
    ((l.filterMap fun i => if p i then some (i, g i) else none).map Prod.fst) =
      l.filter p := by
  induction l with
  | nil => rfl
  | cons a l ih =>
    by_cases hp : p a = true
    · simp [hp, ih]
    · simp [Bool.not_eq_true _ |>.mp hp, ih]

theorem incidentSpringIds_eq_map_fst (springs : List VSpring) (v : Nat) :
    incidentSpringIds springs v = (indexedIncident springs v).map Prod.fst := by
  rw [incidentSpringIds, indexedIncident, filterMap_if_fst]

theorem vertexParamsOf_spec (g : Geom) (v : Nat)
    (hv : v < g.verletVertices.length) :
    vertexParamsOf g v =
      (if (g.verletVertices.getD v dfltVertex).isFixed then ⟨true, 0, 0⟩
       else ⟨false, (g.verletVertices.getD v dfltVertex).springIds.length,
         csrOffset g.verletVertices v⟩) := by
  have h := foldl_vertexBufferStep_params g.verletVertices [] [] v hv
  simpa [vertexParamsOf, setupVerletVertexBuffers] using h

theorem springList_spec (g : Geom) :
    (setupVerletVertexBuffers g).2 = csrList g.verletVertices := by
  have h := foldl_vertexBufferStep_slist g.verletVertices [] []
  simpa [setupVerletVertexBuffers] using h

theorem adjacencySlice_spec (g : Geom) (v : Nat)
    (hv : v < g.verletVertices.length)
    (hnf : (g.verletVertices.getD v dfltVertex).isFixed = false) :
    adjacencySlice g v =
      (g.verletVertices.getD v dfltVertex).springIds.map Prod.fst := by
  show (((setupVerletVertexBuffers g).2.drop ((vertexParamsOf g v).springPointer)).take
      ((vertexParamsOf g v).springCount)) =
    (g.verletVertices.getD v dfltVertex).springIds.map Prod.fst
  rw [vertexParamsOf_spec g v hv, hnf, springList_spec]
  simp only [Bool.false_eq_true, if_false]
  exact csrList_slice g.verletVertices v hv hnf

theorem topId_lt (nx ny x y : Nat) (hx : x ≤ nx) (hy : y ≤ ny) :
    topId ny x y < (nx + 1) * (ny + 1) := by
  have h1 : x * (ny + 1) ≤ nx * (ny + 1) := Nat.mul_le_mul_right (ny + 1) hx
  have h2 : (nx + 1) * (ny + 1) = nx * (ny + 1) + (ny + 1) := by ring
  unfold topId
  omega

theorem topId_inj (ny x y x2 y2 : Nat) (hy : y ≤ ny) (hy2 : y2 ≤ ny)
    (h : topId ny x y = topId ny x2 y2) : x = x2 ∧ y = y2 := by
  unfold topId at h
  have e1 : (x * (ny + 1) + y) / (ny + 1) = x := by
    rw [Nat.mul_comm, Nat.mul_add_div (Nat.succ_pos ny), Nat.div_eq_of_lt (by omega),
      Nat.add_zero]
  have e2 : (x2 * (ny + 1) + y2) / (ny + 1) = x2 := by
    rw [Nat.mul_comm, Nat.mul_add_div (Nat.succ_pos ny), Nat.div_eq_of_lt (by omega),
      Nat.add_zero]
  rw [h] at e1
  rw [e2] at e1
  subst e1
  exact ⟨rfl, by omega⟩

theorem cell_endpoint_ne (base ny x y x2 y2 : Nat) (hy : y ≤ ny) (hy2 : y2 ≤ ny)
    (hne : ¬(x = x2 ∧ y = y2)) :
    base + topId ny x y ≠ base + topId ny x2 y2 := by
  intro h
  exact hne (topId_inj ny x y x2 y2 hy hy2 (Nat.add_left_cancel h))

theorem geomCmds_wf (nx ny : Nat) (zk : ℚ) :
    ∀ c ∈ geomCmds nx ny zk, c.a ≠ c.b := by
  intro c hc
  simp only [geomCmds, layerCmds, cellCmds, zCmds, List.mem_append, List.mem_flatMap,
    List.mem_range, List.mem_map, List.mem_ite_nil_right, List.mem_singleton,
    Bool.and_eq_true, decide_eq_true_eq] at hc
  rcases hc with (⟨x, hx, y, hy, hcell⟩ | ⟨x, hx, y, hy, hcell⟩) | ⟨x, hx, y, hy, hcz⟩
  · rcases hcell with ((⟨hx0, rfl⟩ | ⟨hy0, rfl⟩) | ⟨⟨hx0, hy0⟩, rfl⟩) | ⟨⟨hx0, hyn⟩, rfl⟩
    · exact cell_endpoint_ne 0 ny x y (x - 1) y (by omega) (by omega) (by omega)
    · exact cell_endpoint_ne 0 ny x y x (y - 1) (by omega) (by omega) (by omega)
    · exact cell_endpoint_ne 0 ny x y (x - 1) (y - 1) (by omega) (by omega) (by omega)
    · exact cell_endpoint_ne 0 ny x y (x - 1) (y + 1) (by omega) (by omega) (by omega)
  · rcases hcell with ((⟨hx0, rfl⟩ | ⟨hy0, rfl⟩) | ⟨⟨hx0, hy0⟩, rfl⟩) | ⟨⟨hx0, hyn⟩, rfl⟩
    · exact cell_endpoint_ne ((nx + 1) * (ny + 1)) ny x y (x - 1) y
        (by omega) (by omega) (by omega)
    · exact cell_endpoint_ne ((nx + 1) * (ny + 1)) ny x y x (y - 1)
        (by omega) (by omega) (by omega)
    · exact cell_endpoint_ne ((nx + 1) * (ny + 1)) ny x y (x - 1) (y - 1)
        (by omega) (by omega) (by omega)
    · exact cell_endpoint_ne ((nx + 1) * (ny + 1)) ny x y (x - 1) (y + 1)
        (by omega) (by omega) (by omega)
  · subst hcz
    show topId ny x y ≠ botId nx ny x y
    unfold botId
    have hpos : 0 < (nx + 1) * (ny + 1) := Nat.mul_pos (Nat.succ_pos nx) (Nat.succ_pos ny)
    omega

theorem c4_adjacency (nx ny : Nat) (w h th zk : ℚ) (v : Nat)
    (hv : v < (setupVerletGeometry nx ny w h th zk).verletVertices.length)
    (hnf : ((setupVerletGeometry nx ny w h th zk).verletVertices.getD v
      dfltVertex).isFixed = false) :
    adjacencySlice (setupVerletGeometry nx ny w h th zk) v =
      incidentSpringIds (setupVerletGeometry nx ny w h th zk).verletSprings v ∧
    (vertexParamsOf (setupVerletGeometry nx ny w h th zk) v).springCount =
      (incidentSpringIds (setupVerletGeometry nx ny w h th zk).verletSprings v).length := by
  have hadjall := runSpringCmds_adjacency (geomCmds nx ny zk)
    { verletVertices := gridVertices nx ny w h th, verletSprings := [] }
    (geomCmds_wf nx ny zk)
    (fun j hj => absurd hj (by simp))
    (fun u hu => by
      have hmem : (gridVertices nx ny w h th).getD u dfltVertex ∈
          gridVertices nx ny w h th := by
        rw [List.getD_eq_getElem?_getD, List.getElem?_eq_getElem hu, Option.getD_some]
        exact List.getElem_mem hu
      have hempty := gridVertices_springIds nx ny w h th _ hmem
      simpa [indexedIncident] using hempty)
  have hgr : runSpringCmds
      { verletVertices := gridVertices nx ny w h th, verletSprings := [] }
      (geomCmds nx ny zk) = setupVerletGeometry nx ny w h th zk := rfl
  rw [hgr] at hadjall
  have hsp := hadjall.2 v hv
  constructor
  · rw [adjacencySlice_spec _ v hv hnf, hsp, incidentSpringIds_eq_map_fst]
  · rw [vertexParamsOf_spec _ v hv, hnf]
    simp only [Bool.false_eq_true, if_false]
    rw [hsp, incidentSpringIds_eq_map_fst, List.length_map]

/-- C4 (amended): for every built topology and every movable (non-fixed)
vertex `v`, the adjacency slice `[offset, offset+count)` recorded by
`setupVerletVertexBuffers` lists exactly the ids of the springs having
`v` as an endpoint, in construction order, and the recorded count equals
the number of such springs.  Fixed vertices carry no adjacency (their
`(count, offset)` stay zero-filled), so the claim as stated over every
vertex fails on them, see the counterexample. -/
theorem c4_adjacency_completeness (nx ny : Nat) (w h th zk : ℚ) (v : Nat)
    (hv : v < (setupVerletGeometry nx ny w h th zk).verletVertices.length)
    (hnf : ((setupVerletGeometry nx ny w h th zk).verletVertices.getD v
      dfltVertex).isFixed = false) :
    adjacencySlice (setupVerletGeometry nx ny w h th zk) v =
      incidentSpringIds (setupVerletGeometry nx ny w h th zk).verletSprings v ∧
    (vertexParamsOf (setupVerletGeometry nx ny w h th zk) v).springCount =
      (incidentSpringIds (setupVerletGeometry nx ny w h th zk).verletSprings v).length :=
  c4_adjacency nx ny w h th zk v hv hnf

/-- Counterexample to C4 as stated: the fixed corner vertex 0 of the
built 1×1-segment topology is the endpoint of springs 0, 1, 5 and 12,
but its adjacency slice is empty and its recorded count is 0. -/
theorem c4_fixed_vertex_cex :
    (demoGeom.verletVertices.getD 0 dfltVertex).isFixed = true ∧
    adjacencySlice demoGeom 0 = [] ∧
    (vertexParamsOf demoGeom 0).springCount = 0 ∧
    incidentSpringIds demoGeom.verletSprings 0 = [0, 1, 5, 12] := by
  refine ⟨by decide, by decide, by decide, by decide⟩

set_option maxRecDepth 100000 in
/-- Witness for C4 (amended) at the movable centre vertex 4 of a
2×2-segment build. -/
theorem c4_adjacency_completeness_witness :
    4 < (setupVerletGeometry 2 2 (3 / 2) (3 / 2) (3 / 1000) (8 / 10)).verletVertices.length ∧
    ((setupVerletGeometry 2 2 (3 / 2) (3 / 2) (3 / 1000) (8 / 10)).verletVertices.getD 4
      dfltVertex).isFixed = false ∧
    adjacencySlice (setupVerletGeometry 2 2 (3 / 2) (3 / 2) (3 / 1000) (8 / 10)) 4 =
      incidentSpringIds
        (setupVerletGeometry 2 2 (3 / 2) (3 / 2) (3 / 1000) (8 / 10)).verletSprings 4 :=
  ⟨by decide, by decide,
    (c4_adjacency_completeness 2 2 (3 / 2) (3 / 2) (3 / 1000) (8 / 10) 4
      (by decide) (by decide)).1⟩

end ClothSim
